import Mathlib

/-!
Verification development for the element-registry / 2D-vector core of the
Nodejs-Game-Engine repository (source file: src/math/vector.ts, containing
the classes Vector2d, DOM, Element and Button).

Modelling conventions:

* JavaScript numbers are modelled two ways.  For the exact-arithmetic
  algebraic claims the components are real numbers.  For the claims about
  IEEE special values, `JsNum` tags a real with the three special values
  Infinity, -Infinity and NaN and the arithmetic operators follow the
  JavaScript special-value rules (finite arithmetic is idealised as exact;
  negative zero and rounding are not modelled — no claim depends on them).
* JavaScript objects are references.  Mutable `Vector2d` objects live in an
  explicit store `VStore` (a bump-allocated heap); the in-place methods
  (`add`, `sub`, `scale`, `normalize`, `setMag`) write through a reference,
  the static methods copy or allocate first, exactly as the source does.
* The `DOM` registry state carries its counter `uid`, the instruction list,
  the id-keyed element map and the vector store.  The element map is kept as
  a list of (id, element) pairs in insertion order; since the source only
  ever inserts at the fresh id `this.uid++`, and JavaScript iterates integer
  object keys in ascending numeric order, insertion order and iteration
  order coincide.
* `createElement(keys, ...values)` throws a TypeError when `values` is
  longer than `keys` (`keys[i]` is `undefined` and `.replace` is called on
  it); the exception is raised while building the local options object,
  before `this.uid`, `this.elements` or the log are touched, so the embedding
  returns `none` and the caller's registry state is the unmodified input.
* `JSON.stringify` is modelled field-for-field; function-valued fields are
  omitted as JSON.stringify does, and the decimal rendering of non-integer
  rationals is not modelled (no claim depends on the digits, only on the
  instruction prefixes and the referenced ids).
-/

namespace Engine

/-- Two dimensional vector record (class Vector2d, vector.ts).  The scalar
type is a parameter: the exact-real claims use `ℝ`, the registry heap uses
`ℚ`, and the IEEE-special-value claims use `JsNum`. -/
@[ext] structure Vector2d (α : Type) where
  x : α
  y : α
deriving DecidableEq

namespace Vector2d

/-- Componentwise addition, the value computed by add (vector.ts line 29). -/
def add {α : Type} [Add α] (v w : Vector2d α) : Vector2d α :=
  ⟨v.x + w.x, v.y + w.y⟩

/-- Componentwise subtraction, the value computed by sub (line 50). -/
def sub {α : Type} [Sub α] (v w : Vector2d α) : Vector2d α :=
  ⟨v.x - w.x, v.y - w.y⟩

/-- Componentwise scaling, the value computed by scale (line 77). -/
def scale {α : Type} [Mul α] (v : Vector2d α) (n : α) : Vector2d α :=
  ⟨v.x * n, v.y * n⟩

/-- magSq: x**2 + y**2 (line 102). -/
def magSq (v : Vector2d ℝ) : ℝ := v.x ^ 2 + v.y ^ 2

/-- mag: magSq ** (1/2) (line 95); real rpow models the JS exponentiation
operator on a nonnegative base. -/
noncomputable def mag (v : Vector2d ℝ) : ℝ := magSq v ^ ((1 : ℝ) / 2)

/-- angle: Math.atan2(y, x) (line 158), modelled by the complex argument,
which agrees with atan2 on all inputs (including atan2(0,0) = 0). -/
noncomputable def angle (v : Vector2d ℝ) : ℝ := Complex.arg ⟨v.x, v.y⟩

/-- fromAngle: (cos angle, sin angle) (line 175). -/
noncomputable def fromAngle (a : ℝ) : Vector2d ℝ := ⟨Real.cos a, Real.sin a⟩

/-- Static rotate (line 190): read mag and angle, add the angle, rebuild
from the new angle and rescale by the original magnitude.  The instance
rotate (line 165) overwrites the receiver with this same value. -/
noncomputable def rotate (v : Vector2d ℝ) (a : ℝ) : Vector2d ℝ :=
  scale (fromAngle (angle v + a)) (mag v)

end Vector2d

/-- JavaScript double values for the degenerate-vector claims: finite values
idealised as exact reals plus the IEEE special values. -/
inductive JsNum : Type where
  | fin (r : ℝ)
  | inf
  | negInf
  | nan

namespace JsNum

/-- Number.isFinite. -/
def isFinite : JsNum → Bool
  | fin _ => true
  | _ => false

/-- JavaScript addition on special values. -/
noncomputable def addJ : JsNum → JsNum → JsNum
  | nan, _ => nan
  | _, nan => nan
  | fin a, fin b => fin (a + b)
  | fin _, inf => inf
  | inf, fin _ => inf
  | inf, inf => inf
  | fin _, negInf => negInf
  | negInf, fin _ => negInf
  | negInf, negInf => negInf
  | inf, negInf => nan
  | negInf, inf => nan

/-- JavaScript multiplication on special values: 0 * Infinity is NaN. -/
noncomputable def mulJ : JsNum → JsNum → JsNum
  | nan, _ => nan
  | _, nan => nan
  | fin a, fin b => fin (a * b)
  | fin a, inf => if a = 0 then nan else if 0 < a then inf else negInf
  | inf, fin b => if b = 0 then nan else if 0 < b then inf else negInf
  | fin a, negInf => if a = 0 then nan else if 0 < a then negInf else inf
  | negInf, fin b => if b = 0 then nan else if 0 < b then negInf else inf
  | inf, inf => inf
  | inf, negInf => negInf
  | negInf, inf => negInf
  | negInf, negInf => inf

/-- JavaScript division on special values: 1/0 is Infinity, 0/0 is NaN
(negative zero is not modelled). -/
noncomputable def divJ : JsNum → JsNum → JsNum
  | nan, _ => nan
  | _, nan => nan
  | fin a, fin b =>
      if b = 0 then (if a = 0 then nan else if 0 < a then inf else negInf)
      else fin (a / b)
  | fin _, inf => fin 0
  | fin _, negInf => fin 0
  | inf, fin b => if 0 ≤ b then inf else negInf
  | negInf, fin b => if 0 ≤ b then negInf else inf
  | inf, inf => nan
  | inf, negInf => nan
  | negInf, inf => nan
  | negInf, negInf => nan

/-- The JS exponentiation x ** (1/2): square root on nonnegative finite
values, NaN on negative finite values, Infinity on both infinities. -/
noncomputable def powHalfJ : JsNum → JsNum
  | nan => nan
  | inf => inf
  | negInf => inf
  | fin r => if r < 0 then nan else fin (Real.sqrt r)

/-- Math.cos: NaN on non-finite input. -/
noncomputable def cosJ : JsNum → JsNum
  | fin r => fin (Real.cos r)
  | _ => nan

/-- Math.sin: NaN on non-finite input. -/
noncomputable def sinJ : JsNum → JsNum
  | fin r => fin (Real.sin r)
  | _ => nan

/-- Math.atan2 on JS values; on finite inputs it is the complex argument
(in particular atan2(0, 0) = 0, not an error). -/
noncomputable def atan2J : JsNum → JsNum → JsNum
  | nan, _ => nan
  | _, nan => nan
  | fin b, fin a => fin (Complex.arg ⟨a, b⟩)
  | inf, fin _ => fin (Real.pi / 2)
  | negInf, fin _ => fin (-(Real.pi / 2))
  | fin _, inf => fin 0
  | fin b, negInf => if 0 ≤ b then fin Real.pi else fin (-Real.pi)
  | inf, inf => fin (Real.pi / 4)
  | inf, negInf => fin (3 * Real.pi / 4)
  | negInf, inf => fin (-(Real.pi / 4))
  | negInf, negInf => fin (-(3 * Real.pi / 4))

end JsNum

/-!
The Vector2d operations over JavaScript doubles, for the claims about the
zero vector.  Instance and static forms compute the same component values
(the static forms copy first); these are those values.
-/

namespace JsVec

open JsNum

/-- scale over JS doubles (vector.ts line 77). -/
noncomputable def scale (v : Vector2d JsNum) (n : JsNum) : Vector2d JsNum :=
  ⟨mulJ v.x n, mulJ v.y n⟩

/-- magSq over JS doubles (line 102). -/
noncomputable def magSq (v : Vector2d JsNum) : JsNum :=
  addJ (mulJ v.x v.x) (mulJ v.y v.y)

/-- mag over JS doubles (line 95). -/
noncomputable def mag (v : Vector2d JsNum) : JsNum := powHalfJ (magSq v)

/-- normalize: scale(1 / mag()) (line 109). -/
noncomputable def normalize (v : Vector2d JsNum) : Vector2d JsNum :=
  scale v (divJ (fin 1) (mag v))

/-- setMag: normalize().scale(n) (line 126). -/
noncomputable def setMag (v : Vector2d JsNum) (n : JsNum) : Vector2d JsNum :=
  scale (normalize v) n

/-- angle over JS doubles (line 158). -/
noncomputable def angle (v : Vector2d JsNum) : JsNum := atan2J v.y v.x

/-- fromAngle over JS doubles (line 175). -/
noncomputable def fromAngle (a : JsNum) : Vector2d JsNum := ⟨cosJ a, sinJ a⟩

/-- rotate over JS doubles (line 190). -/
noncomputable def rotate (v : Vector2d JsNum) (a : JsNum) : Vector2d JsNum :=
  scale (fromAngle (addJ (angle v) a)) (mag v)

end JsVec

/-- A bump-allocated store of mutable Vector2d objects: JavaScript object
references are natural numbers, `next` is the next fresh reference. -/
structure VStore (α : Type) where
  next : ℕ
  vecs : ℕ → Vector2d α

namespace VStore

/-- Allocation of a fresh Vector2d object (the JS `new Vector2d(...)`). -/
def allocV {α : Type} (s : VStore α) (v : Vector2d α) : ℕ × VStore α :=
  (s.next, ⟨s.next + 1, Function.update s.vecs s.next v⟩)

/-- Overwrite the components of the object behind reference `r`. -/
def writeV {α : Type} (s : VStore α) (r : ℕ) (v : Vector2d α) : VStore α :=
  { s with vecs := Function.update s.vecs r v }

/-- Instance add (vector.ts line 29): mutates the receiver `r` in place by
the components of the argument object `u` and returns the receiver. -/
def addI {α : Type} [Add α] (s : VStore α) (r u : ℕ) : VStore α :=
  writeV s r (Vector2d.add (s.vecs r) (s.vecs u))

/-- Instance sub (line 50): in-place subtraction on the receiver. -/
def subI {α : Type} [Sub α] (s : VStore α) (r u : ℕ) : VStore α :=
  writeV s r (Vector2d.sub (s.vecs r) (s.vecs u))

/-- Instance scale (line 77): in-place scaling of the receiver. -/
def scaleI {α : Type} [Mul α] (s : VStore α) (r : ℕ) (n : α) : VStore α :=
  writeV s r (Vector2d.scale (s.vecs r) n)

/-- copy (line 151): allocates a fresh object with the same components. -/
def copyV {α : Type} (s : VStore α) (r : ℕ) : ℕ × VStore α :=
  allocV s (s.vecs r)

/-- Static add (line 41): v1.copy().add(v2). -/
def addS {α : Type} [Add α] (s : VStore α) (r u : ℕ) : ℕ × VStore α :=
  let c := copyV s r
  (c.1, addI c.2 c.1 u)

/-- Static sub (line 61): v1.copy().sub(v2). -/
def subS {α : Type} [Sub α] (s : VStore α) (r u : ℕ) : ℕ × VStore α :=
  let c := copyV s r
  (c.1, subI c.2 c.1 u)

/-- Static scale (line 88): v.copy().scale(n). -/
def scaleS {α : Type} [Mul α] (s : VStore α) (r : ℕ) (n : α) : ℕ × VStore α :=
  let c := copyV s r
  (c.1, scaleI c.2 c.1 n)

/-- Instance normalize (line 109): this.scale(1/this.mag()), in place. -/
noncomputable def normalizeI (s : VStore ℝ) (r : ℕ) : VStore ℝ :=
  scaleI s r (1 / Vector2d.mag (s.vecs r))

/-- Static normalize (line 118): v.copy().normalize(). -/
noncomputable def normalizeS (s : VStore ℝ) (r : ℕ) : ℕ × VStore ℝ :=
  let c := copyV s r
  (c.1, normalizeI c.2 c.1)

/-- Instance setMag (line 126): this.normalize().scale(n), in place. -/
noncomputable def setMagI (s : VStore ℝ) (r : ℕ) (n : ℝ) : VStore ℝ :=
  scaleI (normalizeI s r) r n

/-- Static setMag (line 135): v.copy().setMag(n). -/
noncomputable def setMagS (s : VStore ℝ) (r : ℕ) (n : ℝ) : ℕ × VStore ℝ :=
  let c := copyV s r
  (c.1, setMagI c.2 c.1 n)

/-- Static rotate (line 190): reads mag and angle of `r`, then allocates
fromAngle(o + angle) and scales that fresh object in place by the original
magnitude; the argument object is never written. -/
noncomputable def rotateS (s : VStore ℝ) (r : ℕ) (a : ℝ) : ℕ × VStore ℝ :=
  let m := Vector2d.mag (s.vecs r)
  let o := Vector2d.angle (s.vecs r)
  let c := allocV s (Vector2d.fromAngle (o + a))
  (c.1, scaleI c.2 c.1 m)

end VStore

/-- Runtime values flowing through the loosely-typed configuration protocol
of the registry: strings, Vector2d references, opaque caller-supplied
functions, the no-op function freshly created by the Button default, and
undefined. -/
inductive Val : Type where
  | str (s : String)
  | vec (r : ℕ)
  | fn (n : ℕ)
  | noopFn
  | undef
deriving DecidableEq

/-- Element record (class Element, vector.ts line 245): id starts at -1
until the registry assigns one; pos, tag and innerText hold whatever runtime
value the options carried (the source is dynamically typed at runtime). -/
structure Element where
  id : ℤ
  pos : Val
  tag : Val
  events : List (String × Val)
  innerText : Val
deriving DecidableEq

/-- Strip all whitespace from an option key (the .replace(/\s/g,'') on line
219); JS \s is modelled by Char.isWhitespace. -/
def stripWs (s : String) : String :=
  String.mk (s.data.filter (fun c => !c.isWhitespace))

/-- Build the options object of createElement (lines 217-220): iterate the
values in order, assigning options[stripWs(keys[i])] = values[i]; when the
values run past the keys, keys[i] is undefined and .replace throws, which
the embedding reports as `none`.  Later assignments override earlier ones,
as JS property assignment does. -/
def buildOptions : List String → List Val → (String → Val) → Option (String → Val)
  | _, [], acc => some acc
  | [], _ :: _, _ => none
  | k :: ks, v :: vs, acc =>
      buildOptions ks vs (fun q => if q = stripWs k then v else acc q)

/-- Element constructor (lines 252-256): pos ?? new Vector2d(), tag ?? "",
innerText ?? "".  A missing pos allocates a fresh (0,0) vector in the store;
a caller-supplied value is stored as-is (by reference, no copy). -/
def mkElement (options : String → Val) (st : VStore ℚ) : Element × VStore ℚ :=
  let posP : Val × VStore ℚ :=
    match options "pos" with
    | Val.undef =>
        let a := VStore.allocV st ⟨0, 0⟩
        (Val.vec a.1, a.2)
    | v => (v, st)
  ({ id := -1,
     pos := posP.1,
     tag := (match options "tag" with | Val.undef => Val.str "" | v => v),
     events := [],
     innerText := (match options "innerText" with | Val.undef => Val.str "" | v => v) },
   posP.2)

/-- Button constructor (lines 260-265): merges the caller options with the
override tag='button', then registers options.click ?? (()=>{}) under the
key "click" in the events table. -/
def mkButton (options : String → Val) (st : VStore ℚ) : Element × VStore ℚ :=
  let merged : String → Val := fun q => if q = "tag" then Val.str "button" else options q
  let p := mkElement merged st
  ({ p.1 with
     events := [("click", match options "click" with | Val.undef => Val.noopFn | v => v)] },
   p.2)

/-- JSON rendering of a rational component; the decimal rendering of
non-integer values is not modelled (no claim depends on the digits). -/
def jsonOfRat (q : ℚ) : String :=
  if q.den = 1 then toString q.num else toString q.num ++ "/" ++ toString q.den

/-- JSON rendering of a runtime value: strings are quoted (escaping inside
the string is not modelled), vector references are serialised as the nested
object read from the store, function values and undefined yield no JSON
(JSON.stringify omits such properties). -/
def jsonOfVal (st : VStore ℚ) : Val → Option String
  | Val.str s => some ("\"" ++ s ++ "\"")
  | Val.vec r =>
      some ("\x7b\"x\":" ++ jsonOfRat (st.vecs r).x ++ ",\"y\":"
              ++ jsonOfRat (st.vecs r).y ++ "\x7d")
  | Val.fn _ => none
  | Val.noopFn => none
  | Val.undef => none

/-- A serialised object property, or nothing when JSON.stringify omits it. -/
def jsonField (st : VStore ℚ) (name : String) (v : Val) : List String :=
  match jsonOfVal st v with
  | none => []
  | some j => ["\"" ++ name ++ "\":" ++ j]

/-- JSON.stringify of an element: the declared fields in declaration order,
function-valued entries omitted. -/
def stringifyElement (e : Element) (st : VStore ℚ) : String :=
  "\x7b" ++ String.intercalate ","
    (["\"id\":" ++ toString e.id]
      ++ jsonField st "pos" e.pos
      ++ jsonField st "tag" e.tag
      ++ ["\"events\":\x7b"
            ++ String.intercalate ","
                 (e.events.filterMap (fun p =>
                   (jsonOfVal st p.2).map (fun j => "\"" ++ p.1 ++ "\":" ++ j)))
            ++ "\x7d"]
      ++ jsonField st "innerText" e.innerText) ++ "\x7d"

/-- Registry state (class DOM, vector.ts line 207) plus the explicit vector
store standing in for the JS heap. -/
structure DomState where
  uid : ℕ
  instructions : List String
  elements : List (ℕ × Element)
  store : VStore ℚ

/-- instruct (line 212): push one raw string onto the log. -/
def instruct (d : DomState) (instruction : String) : DomState :=
  { d with instructions := d.instructions ++ [instruction] }

/-- createElement (line 216): build the options object (this can throw, see
buildOptions), take the fresh id from uid++ , dispatch on options.tag ===
'button', assign the id, store the element under it, and log
createElement(JSON.stringify(e)); the element is returned to the caller. -/
def createElement (d : DomState) (keys : List String) (values : List Val) :
    Option (DomState × Element) :=
  match buildOptions keys values (fun _ => Val.undef) with
  | none => none
  | some options =>
      let id := d.uid
      let p := if options "tag" = Val.str "button" then mkButton options d.store
               else mkElement options d.store
      let e := { p.1 with id := (id : ℤ) }
      some
        (instruct
          { d with uid := id + 1, elements := d.elements ++ [(id, e)], store := p.2 }
          ("createElement(" ++ stringifyElement e p.2 ++ ");"),
         e)

/-- update (line 236): for every stored element, in iteration order, log
updateElement(id, JSON.stringify(e)); there is no diffing of any kind. -/
def update (d : DomState) : DomState :=
  List.foldl
    (fun acc p =>
      instruct acc
        ("updateElement(" ++ toString p.2.id ++ ","
           ++ stringifyElement p.2 d.store ++ ");"))
    d d.elements

/-- A freshly constructed registry: uid 0, no log, no elements, empty heap. -/
def freshDOM : DomState :=
  { uid := 0, instructions := [], elements := [],
    store := { next := 0, vecs := fun _ => ⟨0, 0⟩ } }

/-- Run a sequence of createElement calls, aborting (as the JS exception
does) when one of them throws. -/
def runCreates : DomState → List (List String × List Val) → Option DomState
  | d, [] => some d
  | d, p :: rest =>
      match createElement d p.1 p.2 with
      | none => none
      | some q => runCreates q.1 rest

/-- One registry operation, as observed by a caller. -/
inductive DomStep : DomState → DomState → Prop where
  | instr : ∀ (d : DomState) (s : String), DomStep d (instruct d s)
  | create : ∀ (d : DomState) (ks : List String) (vs : List Val)
      (d2 : DomState) (e : Element),
      createElement d ks vs = some (d2, e) → DomStep d d2
  | upd : ∀ (d : DomState), DomStep d (update d)

/-- Registry states reachable from a fresh registry by registry operations. -/
inductive Reachable : DomState → Prop where
  | fresh : Reachable freshDOM
  | step : ∀ (d d2 : DomState), Reachable d → DomStep d d2 → Reachable d2

/-- Concrete one-element registry state used by witnesses. -/
def domW : DomState :=
  { uid := 1, instructions := [],
    elements := [(0, { id := 0, pos := Val.vec 0, tag := Val.str "",
                       events := [], innerText := Val.str "" })],
    store := { next := 1, vecs := fun _ => ⟨0, 0⟩ } }

/-- Concrete real-valued store used by the static-operation witness. -/
noncomputable def storeW : VStore ℝ :=
  { next := 1, vecs := fun _ => ⟨0, 0⟩ }

/-- The registry state after one successful createElement on a fresh
registry, used by witnesses. -/
def c1wState : DomState :=
  (runCreates freshDOM [(["tag"], [Val.str "div"])]).get rfl

/-- Concrete rational store with two allocated vectors (1,2) and (3,4),
used by the pos-sharing claim. -/
def c8Store : VStore ℚ :=
  { next := 2, vecs := fun k => if k = 0 then ⟨1, 2⟩ else ⟨3, 4⟩ }

/-- Concrete options carrying the caller's vector reference 0 as pos. -/
def c8Opts : String → Val :=
  fun q => if q = "pos" then Val.vec 0 else Val.undef

/-!
Theorems.  First the exact-real facts about Vector2d used by the algebraic
claim, then the special-value facts, then the heap and registry claims.
-/

namespace Vector2d

/-- The JS exponent mag = magSq ** (1/2) is the square root. -/
theorem mag_eq_sqrt (v : Vector2d ℝ) : mag v = Real.sqrt (magSq v) := by
  rw [mag, Real.sqrt_eq_rpow]

/-- The polar decomposition recovers the x component: cos(angle) * mag = x. -/
theorem cos_angle_mul_mag (v : Vector2d ℝ) : Real.cos (angle v) * mag v = v.x := by
  rw [mag_eq_sqrt]
  by_cases h : (⟨v.x, v.y⟩ : ℂ) = 0
  · have hx : v.x = 0 := by simpa using congrArg Complex.re h
    have hy : v.y = 0 := by simpa using congrArg Complex.im h
    simp only [angle]
    rw [h, Complex.arg_zero, Real.cos_zero, one_mul, hx]
    simp [magSq, hx, hy]
  · have hmag : Real.sqrt (magSq v) = Complex.abs ⟨v.x, v.y⟩ := by
      rw [Complex.abs_apply, Complex.normSq_mk, magSq]
      congr 1
      ring
    have hne : Real.sqrt (magSq v) ≠ 0 := by
      rw [hmag]
      exact Complex.abs.ne_zero h
    simp only [angle]
    rw [Complex.cos_arg h, ← hmag]
    exact div_mul_cancel₀ v.x hne

/-- The polar decomposition recovers the y component: sin(angle) * mag = y. -/
theorem sin_angle_mul_mag (v : Vector2d ℝ) : Real.sin (angle v) * mag v = v.y := by
  rw [mag_eq_sqrt]
  by_cases h : (⟨v.x, v.y⟩ : ℂ) = 0
  · have hx : v.x = 0 := by simpa using congrArg Complex.re h
    have hy : v.y = 0 := by simpa using congrArg Complex.im h
    simp only [angle]
    rw [h, Complex.arg_zero, Real.sin_zero, zero_mul, hy]
  · have hmag : Real.sqrt (magSq v) = Complex.abs ⟨v.x, v.y⟩ := by
      rw [Complex.abs_apply, Complex.normSq_mk, magSq]
      congr 1
      ring
    have hne : Real.sqrt (magSq v) ≠ 0 := by
      rw [hmag]
      exact Complex.abs.ne_zero h
    simp only [angle]
    rw [Complex.sin_arg, ← hmag]
    exact div_mul_cancel₀ v.y hne

/-- rotate in closed form: the usual rotation matrix applied to (x, y). -/
theorem rotate_closed (v : Vector2d ℝ) (a : ℝ) :
    rotate v a = ⟨v.x * Real.cos a - v.y * Real.sin a,
                  v.x * Real.sin a + v.y * Real.cos a⟩ := by
  refine Vector2d.ext ?_ ?_
  · show Real.cos (angle v + a) * mag v = _
    rw [Real.cos_add]
    linear_combination Real.cos a * cos_angle_mul_mag v - Real.sin a * sin_angle_mul_mag v
  · show Real.sin (angle v + a) * mag v = _
    rw [Real.sin_add]
    linear_combination Real.sin a * cos_angle_mul_mag v + Real.cos a * sin_angle_mul_mag v

end Vector2d

/-- C9: for every vector v and angle a, rotating v by a and then rotating
the result by -a yields v again — exactly, in the exact-real model of the
static rotate of vector.ts line 190 (the instance rotate stores the same
components). -/
theorem c9_rotate_roundtrip (v : Vector2d ℝ) (a : ℝ) :
    Vector2d.rotate (Vector2d.rotate v a) (-a) = v := by
  rw [Vector2d.rotate_closed, Vector2d.rotate_closed]
  refine Vector2d.ext ?_ ?_
  · simp only [Real.cos_neg, Real.sin_neg]
    show (v.x * Real.cos a - v.y * Real.sin a) * Real.cos a -
        (v.x * Real.sin a + v.y * Real.cos a) * -Real.sin a = v.x
    linear_combination v.x * Real.sin_sq_add_cos_sq a
  · simp only [Real.cos_neg, Real.sin_neg]
    show (v.x * Real.cos a - v.y * Real.sin a) * -Real.sin a +
        (v.x * Real.sin a + v.y * Real.cos a) * Real.cos a = v.y
    linear_combination v.y * Real.sin_sq_add_cos_sq a

/-- Rotating the zero vector never blows up: atan2(0,0) is 0, the magnitude
is 0, and the rebuilt vector is (cos(a)*0, sin(a)*0) = (0, 0). -/
theorem rotate_zero_vec (r : ℝ) :
    JsVec.rotate ⟨JsNum.fin 0, JsNum.fin 0⟩ (JsNum.fin r)
      = ⟨JsNum.fin 0, JsNum.fin 0⟩ := by
  norm_num [JsVec.rotate, JsVec.scale, JsVec.fromAngle, JsVec.angle, JsVec.mag,
    JsVec.magSq, JsNum.atan2J, JsNum.addJ, JsNum.mulJ, JsNum.cosJ, JsNum.sinJ,
    JsNum.powHalfJ, Real.sqrt_zero]

/-- C4 counterexample: the claim asserts that rotate on the zero vector
produces non-finite components, but in the code rotate((0,0), 0) completes
and returns the zero vector, whose components are finite. -/
theorem c4_counterexample :
    (JsVec.rotate ⟨JsNum.fin 0, JsNum.fin 0⟩ (JsNum.fin 0)).x.isFinite = true ∧
    (JsVec.rotate ⟨JsNum.fin 0, JsNum.fin 0⟩ (JsNum.fin 0)).y.isFinite = true := by
  rw [rotate_zero_vec 0]
  exact ⟨rfl, rfl⟩

/-- C4 (amended): on the zero vector, normalize() and setMag(n) complete
without an error and produce non-finite (NaN) components — 1/mag(0,0) is
Infinity and 0 * Infinity is NaN — while rotate(angle) also completes
without an error but returns the finite zero vector.  Instance and static
forms store the same component values. -/
theorem c4_zero_vector_degenerate :
    ((JsVec.normalize ⟨JsNum.fin 0, JsNum.fin 0⟩).x = JsNum.nan ∧
     (JsVec.normalize ⟨JsNum.fin 0, JsNum.fin 0⟩).y = JsNum.nan) ∧
    (∀ n : JsNum,
      (JsVec.setMag ⟨JsNum.fin 0, JsNum.fin 0⟩ n).x = JsNum.nan ∧
      (JsVec.setMag ⟨JsNum.fin 0, JsNum.fin 0⟩ n).y = JsNum.nan) ∧
    (∀ r : ℝ, JsVec.rotate ⟨JsNum.fin 0, JsNum.fin 0⟩ (JsNum.fin r)
      = ⟨JsNum.fin 0, JsNum.fin 0⟩) := by
  have hn : JsVec.normalize ⟨JsNum.fin 0, JsNum.fin 0⟩ = ⟨JsNum.nan, JsNum.nan⟩ := by
    norm_num [JsVec.normalize, JsVec.scale, JsVec.mag, JsVec.magSq, JsNum.divJ,
      JsNum.mulJ, JsNum.addJ, JsNum.powHalfJ, Real.sqrt_zero]
  refine ⟨⟨by rw [hn], by rw [hn]⟩, ?_, rotate_zero_vec⟩
  intro n
  rw [JsVec.setMag, hn]
  cases n <;> exact ⟨rfl, rfl⟩

/-- C5: every static Vector2d operation (add, sub, scale, normalize,
setMag, rotate) writes only to the object it freshly copies or allocates, so
every previously allocated object — in particular every vector argument —
still has its original x and y components afterwards. -/
theorem c5_static_no_mutation (s : VStore ℝ) (r u p : ℕ) (n a : ℝ)
    (hp : p < s.next) :
    (VStore.addS s r u).2.vecs p = s.vecs p ∧
    (VStore.subS s r u).2.vecs p = s.vecs p ∧
    (VStore.scaleS s r n).2.vecs p = s.vecs p ∧
    (VStore.normalizeS s r).2.vecs p = s.vecs p ∧
    (VStore.setMagS s r n).2.vecs p = s.vecs p ∧
    (VStore.rotateS s r a).2.vecs p = s.vecs p := by
  have hne : p ≠ s.next := Nat.ne_of_lt hp
  refine ⟨?_, ?_, ?_, ?_, ?_, ?_⟩ <;>
    simp [VStore.addS, VStore.subS, VStore.scaleS, VStore.normalizeS,
      VStore.setMagS, VStore.rotateS, VStore.addI, VStore.subI, VStore.scaleI,
      VStore.normalizeI, VStore.setMagI, VStore.copyV, VStore.allocV,
      VStore.writeV, Function.update_apply, hne]

/-- Witness for C5 at a concrete store with one allocated vector. -/
theorem c5_static_no_mutation_witness :
    0 < storeW.next ∧
    ((VStore.addS storeW 0 0).2.vecs 0 = storeW.vecs 0 ∧
     (VStore.subS storeW 0 0).2.vecs 0 = storeW.vecs 0 ∧
     (VStore.scaleS storeW 0 1).2.vecs 0 = storeW.vecs 0 ∧
     (VStore.normalizeS storeW 0).2.vecs 0 = storeW.vecs 0 ∧
     (VStore.setMagS storeW 0 1).2.vecs 0 = storeW.vecs 0 ∧
     (VStore.rotateS storeW 0 1).2.vecs 0 = storeW.vecs 0) :=
  ⟨Nat.one_pos, c5_static_no_mutation storeW 0 0 0 1 1 Nat.one_pos⟩

/-- C8 counterexample: the claim says a stored element's pos is not shared
with the caller, but the Element constructor stores the caller's vector
reference without copying.  With the vector (1,2) at reference 0 passed as
pos, an in-place add of the vector (3,4) through the caller's reference
leaves the cell the element's pos designates at (4,6), not (1,2): the
element's pos components did change. -/
theorem c8_counterexample :
    (mkElement c8Opts c8Store).1.pos = Val.vec 0 ∧
    (VStore.addI (mkElement c8Opts c8Store).2 0 1).vecs 0 ≠ (⟨1, 2⟩ : Vector2d ℚ) ∧
    (VStore.addI (mkElement c8Opts c8Store).2 0 1).vecs 0 = (⟨4, 6⟩ : Vector2d ℚ) := by
  have hmk : (mkElement c8Opts c8Store).2 = c8Store := by
    simp [mkElement, c8Opts]
  have hadd : (VStore.addI c8Store 0 1).vecs 0 = (⟨4, 6⟩ : Vector2d ℚ) := by
    simp [VStore.addI, VStore.writeV, Vector2d.add, c8Store, Function.update_same]
    norm_num
  refine ⟨rfl, ?_, ?_⟩
  · rw [hmk, hadd]
    simp [Vector2d.mk.injEq]
  · rw [hmk, hadd]

/-- C8 (amended): the Element constructor does not copy a caller-supplied
pos vector: the element's pos is the very reference the caller passed and
no fresh vector is allocated, so in-place mutation through the caller's
reference is visible through the element's pos. -/
theorem c8_pos_shared (options : String → Val) (st : VStore ℚ) (r : ℕ)
    (h : options "pos" = Val.vec r) :
    (mkElement options st).1.pos = Val.vec r ∧ (mkElement options st).2 = st := by
  simp [mkElement, h]

/-- Witness for the amended C8 at the concrete store and options. -/
theorem c8_pos_shared_witness :
    c8Opts "pos" = Val.vec 0 ∧
    ((mkElement c8Opts c8Store).1.pos = Val.vec 0 ∧
     (mkElement c8Opts c8Store).2 = c8Store) :=
  ⟨rfl, c8_pos_shared c8Opts c8Store 0 rfl⟩

/-- C6: whatever the options carry (any tag value included), a constructed
Button has tag equal to the literal string "button" — the constructor merges
the caller options with a tag override — and its events table binds the key
"click" to the caller-supplied callback when one is given and to the no-op
callback otherwise. -/
theorem c6_button_tag_click (options : String → Val) (st : VStore ℚ) :
    (mkButton options st).1.tag = Val.str "button" ∧
    (mkButton options st).1.events
      = [("click", if options "click" = Val.undef then Val.noopFn
                   else options "click")] := by
  cases hc : options "click" <;> cases hp : options "pos" <;>
    simp [mkButton, mkElement, hc, hp]

/-- A values list that runs past the keys list makes buildOptions throw. -/
theorem buildOptions_none (ks : List String) (vs : List Val) (acc : String → Val)
    (h : ks.length < vs.length) : buildOptions ks vs acc = none := by
  induction ks generalizing vs acc with
  | nil =>
      cases vs with
      | nil => exact absurd h (lt_irrefl 0)
      | cons v vs2 => rfl
  | cons k ks2 ih =>
      cases vs with
      | nil => exact absurd h (by simp)
      | cons v vs2 => exact ih vs2 _ (by simpa using h)

/-- C10: when the values list is strictly longer than the keys list,
createElement raises (keys[i] is undefined at i = keys.length and .replace
is invoked on it) — the exception is thrown while building the local
options object, before uid, the element map or the log are touched, so the
caller's registry state is exactly the unmodified input state. -/
theorem c10_excess_values (d : DomState) (ks : List String) (vs : List Val)
    (h : ks.length < vs.length) : createElement d ks vs = none := by
  rw [createElement, buildOptions_none ks vs _ h]

/-- Witness for C10: one value and no keys. -/
theorem c10_excess_values_witness :
    ([] : List String).length < ([Val.undef] : List Val).length ∧
    createElement freshDOM [] [Val.undef] = none :=
  ⟨Nat.zero_lt_one, c10_excess_values freshDOM [] [Val.undef] Nat.zero_lt_one⟩

/-- A values list no longer than the keys list never makes buildOptions
throw. -/
theorem buildOptions_isSome (ks : List String) (vs : List Val) (acc : String → Val)
    (h : vs.length ≤ ks.length) : (buildOptions ks vs acc).isSome = true := by
  induction vs generalizing ks acc with
  | nil => cases ks <;> rfl
  | cons v vs2 ih =>
      cases ks with
      | nil => exact absurd h (by simp)
      | cons k ks2 => exact ih ks2 _ (by simpa using h)

/-- Option names not reached by the zip keep their (undefined) value. -/
theorem buildOptions_absent (ks : List String) (vs : List Val) (acc : String → Val)
    (o : String → Val) (q : String)
    (ho : buildOptions ks vs acc = some o)
    (hq : q ∉ (ks.take vs.length).map stripWs) : o q = acc q := by
  induction vs generalizing ks acc with
  | nil =>
      have : some acc = some o := by cases ks <;> exact ho
      rw [← Option.some.inj this]
  | cons v vs2 ih =>
      cases ks with
      | nil => simp [buildOptions] at ho
      | cons k ks2 =>
          simp only [List.length_cons, List.take_succ_cons, List.map_cons,
            List.mem_cons, not_or] at hq
          have h2 := ih ks2 _ ho hq.2
          rw [h2]
          simp [hq.1]

/-- Default tag: a missing tag option becomes the empty string. -/
theorem mkElement_tag_default (options : String → Val) (st : VStore ℚ)
    (h : options "tag" = Val.undef) :
    (mkElement options st).1.tag = Val.str "" := by
  cases hp : options "pos" <;> simp [mkElement, h, hp]

/-- Default innerText: a missing innerText option becomes the empty string. -/
theorem mkElement_innerText_default (options : String → Val) (st : VStore ℚ)
    (h : options "innerText" = Val.undef) :
    (mkElement options st).1.innerText = Val.str "" := by
  cases hp : options "pos" <;> simp [mkElement, h, hp]

/-- Default pos: a missing pos option allocates a fresh (0,0) vector. -/
theorem mkElement_pos_default (options : String → Val) (st : VStore ℚ)
    (h : options "pos" = Val.undef) :
    (mkElement options st).1.pos = Val.vec st.next ∧
    (mkElement options st).2.vecs st.next = (⟨0, 0⟩ : Vector2d ℚ) := by
  simp [mkElement, h, VStore.allocV, Function.update_same]

/-- C7: a values list strictly shorter than the keys list signals no error:
buildOptions succeeds, every option name not reached by the zip is simply
absent (undefined), an absent option keeps the default of the Element
constructor (tag "", pos a fresh (0,0) vector, innerText ""), and the whole
createElement call completes normally. -/
theorem c7_missing_values :
    (∀ (ks : List String) (vs : List Val) (acc : String → Val),
        vs.length ≤ ks.length → (buildOptions ks vs acc).isSome = true) ∧
    (∀ (ks : List String) (vs : List Val) (acc o : String → Val) (q : String),
        buildOptions ks vs acc = some o →
        q ∉ (ks.take vs.length).map stripWs → o q = acc q) ∧
    (∀ (options : String → Val) (st : VStore ℚ),
        (options "tag" = Val.undef → (mkElement options st).1.tag = Val.str "") ∧
        (options "innerText" = Val.undef →
            (mkElement options st).1.innerText = Val.str "") ∧
        (options "pos" = Val.undef →
            (mkElement options st).1.pos = Val.vec st.next ∧
            (mkElement options st).2.vecs st.next = (⟨0, 0⟩ : Vector2d ℚ))) ∧
    (∀ (d : DomState) (ks : List String) (vs : List Val),
        vs.length < ks.length → (createElement d ks vs).isSome = true) := by
  refine ⟨buildOptions_isSome, buildOptions_absent, ?_, ?_⟩
  · intro options st
    exact ⟨mkElement_tag_default options st,
           mkElement_innerText_default options st,
           mkElement_pos_default options st⟩
  · intro d ks vs h
    have hb := buildOptions_isSome ks vs (fun _ => Val.undef) h.le
    rw [createElement]
    cases ho : buildOptions ks vs (fun _ => Val.undef) with
    | none => rw [ho] at hb; cases hb
    | some o => rfl

/-- Witness for C7 at two keys and one value. -/
theorem c7_missing_values_witness :
    (([Val.str "go"] : List Val)).length ≤ (["tag", "pos"] : List String).length ∧
    ([Val.str "go"] : List Val).length < (["tag", "pos"] : List String).length ∧
    (buildOptions ["tag", "pos"] [Val.str "go"] (fun _ => Val.undef)).isSome = true ∧
    (createElement freshDOM ["tag", "pos"] [Val.str "go"]).isSome = true :=
  ⟨by decide, by decide,
   c7_missing_values.1 ["tag", "pos"] [Val.str "go"] (fun _ => Val.undef) (by decide),
   c7_missing_values.2.2.2 freshDOM ["tag", "pos"] [Val.str "go"] (by decide)⟩

/-- Folding instruct over a list appends one log entry per list element and
changes nothing else. -/
theorem foldl_instruct (f : ℕ × Element → String) (l : List (ℕ × Element)) :
    ∀ d0 : DomState,
      List.foldl (fun acc p => instruct acc (f p)) d0 l
        = { d0 with instructions := d0.instructions ++ l.map f } := by
  induction l with
  | nil => intro d0; simp
  | cons p t ih =>
      intro d0
      rw [List.foldl_cons, ih]
      simp [instruct]

/-- update appends one updateElement entry per stored element, in element
order, and leaves uid, the element map and the store unchanged. -/
theorem update_eq_append (d : DomState) :
    update d
      = { d with instructions := d.instructions ++ d.elements.map (fun p =>
            "updateElement(" ++ toString p.2.id ++ ","
              ++ stringifyElement p.2 d.store ++ ");") } := by
  rw [update]
  exact foldl_instruct _ d.elements d

/-- What one successful createElement call does to the registry state. -/
theorem exists_tail_entry (p s q : String) (l : List String) :
    ∃ t, l ++ [p ++ s ++ q] = l ++ [p ++ t] :=
  ⟨s ++ q, by rw [String.append_assoc]⟩

/-- What one successful createElement call does to the registry state. -/
theorem createElement_step (d : DomState) (ks : List String) (vs : List Val)
    (d2 : DomState) (e : Element)
    (h : createElement d ks vs = some (d2, e)) :
    d2.uid = d.uid + 1 ∧ e.id = (d.uid : ℤ) ∧
    d2.elements = d.elements ++ [(d.uid, e)] ∧
    ∃ t, d2.instructions = d.instructions ++ ["createElement(" ++ t] := by
  rw [createElement] at h
  cases hb : buildOptions ks vs (fun _ => Val.undef) with
  | none => rw [hb] at h; cases h
  | some o =>
      rw [hb] at h
      simp only [Option.some.injEq, Prod.mk.injEq] at h
      obtain ⟨hst, he⟩ := h
      subst hst
      subst he
      exact ⟨rfl, rfl, rfl, exists_tail_entry _ _ _ _⟩

/-- What a successful run of successive createElement calls does: the uid
counter advances by the number of calls, the keys of the freshly stored
elements are exactly the consecutive ids starting at the old counter, each
stored element records its own key as its id, and the log grows by exactly
one createElement(-prefixed entry per call. -/
theorem runCreates_spec (inputs : List (List String × List Val)) :
    ∀ d d2 : DomState, runCreates d inputs = some d2 →
      d2.uid = d.uid + inputs.length ∧
      d2.elements.map Prod.fst
        = d.elements.map Prod.fst ++ List.range' d.uid inputs.length ∧
      ((∀ p ∈ d.elements, p.2.id = (p.1 : ℤ)) →
        ∀ p ∈ d2.elements, p.2.id = (p.1 : ℤ)) ∧
      ∃ t, d2.instructions = d.instructions ++ t ∧ t.length = inputs.length ∧
        ∀ s ∈ t, ∃ rest, s = "createElement(" ++ rest := by
  induction inputs with
  | nil =>
      intro d d2 h
      obtain rfl := Option.some.inj h
      exact ⟨by simp, by simp [List.range'], fun hd => hd, ⟨[], by simp⟩⟩
  | cons inp rest ih =>
      intro d d2 h
      rw [runCreates] at h
      cases hc : createElement d inp.1 inp.2 with
      | none => rw [hc] at h; cases h
      | some q =>
          rw [hc] at h
          obtain ⟨hu, hid, hel, t0, hins⟩ :=
            createElement_step d inp.1 inp.2 q.1 q.2 hc
          obtain ⟨h1, h2, h3, t, ht, htl, hts⟩ := ih q.1 d2 h
          refine ⟨?_, ?_, ?_, ?_⟩
          · rw [h1, hu, List.length_cons]
            omega
          · rw [h2, hel, hu, List.length_cons, List.map_append]
            rw [List.range'_succ d.uid rest.length 1, List.append_assoc]
            rfl
          · intro hd
            refine h3 ?_
            rw [hel]
            intro p hp
            rcases List.mem_append.mp hp with hpd | hpn
            · exact hd p hpd
            · rcases List.mem_singleton.mp hpn with rfl
              exact hid
          · refine ⟨["createElement(" ++ t0] ++ t, ?_, ?_, ?_⟩
            · rw [ht, hins, List.append_assoc]
            · simp [htl]
            · intro s hs
              rcases List.mem_append.mp hs with hs0 | hst
              · rcases List.mem_singleton.mp hs0 with rfl
                exact ⟨t0, rfl⟩
              · exact hts s hst

/-- C1: after n successive successful createElement calls on a fresh
registry, the id counter uid equals n, there are n stored elements whose
keys and recorded ids are exactly the distinct integers 0..n-1 in order,
and the instruction log holds exactly n entries, each beginning with the
prefix createElement( . -/
theorem c1_create_sequence (inputs : List (List String × List Val))
    (d2 : DomState) (h : runCreates freshDOM inputs = some d2) :
    d2.uid = inputs.length ∧
    d2.elements.length = inputs.length ∧
    d2.elements.map Prod.fst = List.range inputs.length ∧
    (d2.elements.map fun p => p.2.id)
      = (List.range inputs.length).map Int.ofNat ∧
    d2.instructions.length = inputs.length ∧
    ∀ s ∈ d2.instructions, ∃ rest, s = "createElement(" ++ rest := by
  obtain ⟨h1, h2, h3, t, ht, htl, hts⟩ := runCreates_spec inputs freshDOM d2 h
  have hkeys : d2.elements.map Prod.fst = List.range inputs.length := by
    rw [h2]
    simp [freshDOM, List.range_eq_range']
  have hid : ∀ p ∈ d2.elements, p.2.id = (p.1 : ℤ) := by
    refine h3 ?_
    intro p hp
    simp [freshDOM] at hp
  refine ⟨by simpa [freshDOM] using h1, ?_, hkeys, ?_, ?_, ?_⟩
  · have := congrArg List.length hkeys
    simpa using this
  · have hc : (d2.elements.map fun p => p.2.id)
        = d2.elements.map (fun p => ((p.1 : ℕ) : ℤ)) :=
      List.map_congr_left hid
    rw [hc, ← hkeys, List.map_map]
    rfl
  · rw [ht]
    simp [freshDOM, htl]
  · intro s hs
    rw [ht] at hs
    simp only [freshDOM, List.nil_append] at hs
    exact hts s hs

/-- Witness for C1: one successful createElement call on a fresh registry. -/
theorem c1_create_sequence_witness :
    runCreates freshDOM [(["tag"], [Val.str "div"])] = some c1wState ∧
    (c1wState.uid = 1 ∧
     c1wState.elements.length = 1 ∧
     c1wState.elements.map Prod.fst = List.range 1 ∧
     (c1wState.elements.map fun p => p.2.id) = (List.range 1).map Int.ofNat ∧
     c1wState.instructions.length = 1 ∧
     ∀ s ∈ c1wState.instructions, ∃ rest, s = "createElement(" ++ rest) := by
  have h0 : (runCreates freshDOM [(["tag"], [Val.str "div"])]).isSome = true := rfl
  have hrun : runCreates freshDOM [(["tag"], [Val.str "div"])] = some c1wState :=
    (Option.some_get h0).symm
  exact ⟨hrun, c1_create_sequence [(["tag"], [Val.str "div"])] c1wState hrun⟩

/-- C2: one update() call on a registry storing k elements appends exactly
k entries to the log — one per stored element, in element order, each
beginning with the prefix updateElement( and referencing that element's id,
the ids being pairwise distinct — and it does so unconditionally: the
statement quantifies over every registry state with well-formed ids, with
no hypothesis about any element having changed since creation or the
previous update; no diffing or dirty-tracking exists.  Nothing else (uid,
elements, store) changes. -/
theorem c2_update_entries (d : DomState)
    (hids : ∀ p ∈ d.elements, p.2.id = (p.1 : ℤ))
    (hnodup : (d.elements.map Prod.fst).Nodup) :
    (update d).instructions
      = d.instructions ++ d.elements.map (fun p =>
          "updateElement(" ++ toString p.2.id ++ ","
            ++ stringifyElement p.2 d.store ++ ");") ∧
    (update d).instructions.length = d.instructions.length + d.elements.length ∧
    (∀ s ∈ (update d).instructions.drop d.instructions.length,
        ∃ rest, s = "updateElement(" ++ rest) ∧
    (d.elements.map fun p => p.2.id).Nodup ∧
    (update d).elements = d.elements ∧
    (update d).uid = d.uid := by
  have hu := update_eq_append d
  refine ⟨by rw [hu], ?_, ?_, ?_, by rw [hu], by rw [hu]⟩
  · rw [hu]
    simp
  · rw [hu]
    intro s hs
    simp only [List.drop_left, List.mem_map] at hs
    obtain ⟨p, hp, rfl⟩ := hs
    exact ⟨toString p.2.id ++ ("," ++ (stringifyElement p.2 d.store ++ ");")),
      by simp [String.append_assoc]⟩
  · have hcast : (d.elements.map fun p => p.2.id)
        = (d.elements.map Prod.fst).map Int.ofNat := by
      rw [List.map_map]
      exact List.map_congr_left hids
    rw [hcast]
    exact hnodup.map (fun a b hab => Int.ofNat.inj hab)

/-- Witness for C2 at a concrete registry storing one element. -/
theorem c2_update_entries_witness :
    (∀ p ∈ domW.elements, p.2.id = (p.1 : ℤ)) ∧
    (domW.elements.map Prod.fst).Nodup ∧
    ((update domW).instructions
      = domW.instructions ++ domW.elements.map (fun p =>
          "updateElement(" ++ toString p.2.id ++ ","
            ++ stringifyElement p.2 domW.store ++ ");") ∧
     (update domW).instructions.length
        = domW.instructions.length + domW.elements.length ∧
     (∀ s ∈ (update domW).instructions.drop domW.instructions.length,
        ∃ rest, s = "updateElement(" ++ rest) ∧
     (domW.elements.map fun p => p.2.id).Nodup ∧
     (update domW).elements = domW.elements ∧
     (update domW).uid = domW.uid) :=
  ⟨by decide, by decide, c2_update_entries domW (by decide) (by decide)⟩

/-- C3: registry invariants.  Every id keyed in the element map of a
reachable registry state is strictly below the id counter uid; across every
registry operation (instruct, createElement, update) the counter never
decreases, the log is append-only (the previous log is a prefix of the new
one, no entry removed or mutated), existing element entries are preserved,
any key added by an operation is at least the old counter, and from a
reachable state every newly added id is strictly above every id already in
use — ids are never reused. -/
theorem c3_registry_invariants :
    (∀ d, Reachable d → ∀ p ∈ d.elements, p.1 < d.uid) ∧
    (∀ d d2, DomStep d d2 →
      d.uid ≤ d2.uid ∧
      (∃ t, d2.instructions = d.instructions ++ t) ∧
      (∀ p ∈ d.elements, p ∈ d2.elements) ∧
      (∀ k ∈ d2.elements.map Prod.fst,
          k ∈ d.elements.map Prod.fst ∨ (d.uid ≤ k ∧ k < d2.uid))) ∧
    (∀ d d2, Reachable d → DomStep d d2 →
      ∀ k ∈ d2.elements.map Prod.fst, k ∉ d.elements.map Prod.fst →
        ∀ j ∈ d.elements.map Prod.fst, j < k) := by
  have hstep : ∀ d d2, DomStep d d2 →
      d.uid ≤ d2.uid ∧
      (∃ t, d2.instructions = d.instructions ++ t) ∧
      (∀ p ∈ d.elements, p ∈ d2.elements) ∧
      (∀ k ∈ d2.elements.map Prod.fst,
          k ∈ d.elements.map Prod.fst ∨ (d.uid ≤ k ∧ k < d2.uid)) := by
    intro d d2 hs
    cases hs with
    | instr s =>
        exact ⟨le_refl _, ⟨[s], rfl⟩, fun p hp => hp, fun k hk => Or.inl hk⟩
    | create ks vs d3 e hc =>
        obtain ⟨hu, hid, hel, t0, hins⟩ := createElement_step _ _ _ _ _ hc
        refine ⟨by omega, ⟨_, hins⟩, ?_, ?_⟩
        · intro p hp
          rw [hel]
          exact List.mem_append_left _ hp
        · intro k hk
          rw [hel, List.map_append, List.mem_append] at hk
          rcases hk with hk | hk
          · exact Or.inl hk
          · rcases List.mem_singleton.mp hk with rfl
            exact Or.inr ⟨le_refl _, by omega⟩
    | upd =>
        rw [update_eq_append d]
        exact ⟨le_refl _, ⟨_, rfl⟩, fun p hp => hp, fun k hk => Or.inl hk⟩
  have hinv : ∀ d, Reachable d → ∀ p ∈ d.elements, p.1 < d.uid := by
    intro d hd
    induction hd with
    | fresh => intro p hp; simp [freshDOM] at hp
    | step dp d2p hr hs ih =>
        intro p hp
        obtain ⟨hu, hlog, hkeep, hkeys⟩ := hstep dp d2p hs
        rcases hkeys p.1 (List.mem_map_of_mem Prod.fst hp) with hold | hnew
        · rcases List.mem_map.mp hold with ⟨q, hq, hqk⟩
          calc p.1 = q.1 := hqk.symm
            _ < dp.uid := ih q hq
            _ ≤ d2p.uid := hu
        · exact hnew.2
  refine ⟨hinv, hstep, ?_⟩
  intro d d2 hr hs k hk hknot j hj
  rcases (hstep d d2 hs).2.2.2 k hk with hold | hnew
  · exact absurd hold hknot
  · rcases List.mem_map.mp hj with ⟨p, hp, rfl⟩
    exact lt_of_lt_of_le (hinv d hr p hp) hnew.1

/-- Witness for C3: the fresh registry and one instruct step. -/
theorem c3_registry_invariants_witness :
    Reachable freshDOM ∧
    DomStep freshDOM (instruct freshDOM "go") ∧
    (∀ p ∈ freshDOM.elements, p.1 < freshDOM.uid) ∧
    (freshDOM.uid ≤ (instruct freshDOM "go").uid ∧
     (∃ t, (instruct freshDOM "go").instructions = freshDOM.instructions ++ t) ∧
     (∀ p ∈ freshDOM.elements, p ∈ (instruct freshDOM "go").elements) ∧
     (∀ k ∈ (instruct freshDOM "go").elements.map Prod.fst,
        k ∈ freshDOM.elements.map Prod.fst ∨
          (freshDOM.uid ≤ k ∧ k < (instruct freshDOM "go").uid))) :=
  ⟨Reachable.fresh, DomStep.instr freshDOM "go",
   c3_registry_invariants.1 freshDOM Reachable.fresh,
   c3_registry_invariants.2.1 freshDOM (instruct freshDOM "go")
     (DomStep.instr freshDOM "go")⟩

end Engine
